import Mathlib

/-!
Verification of the enrichment/transform stage of the SpaceX launch tracker
(src/tasks/transform.py): the reference indexer, the timestamp normalizer
`_parse_iso_datetime`, and the launch enricher `transform_launches`.

Python values are modelled by the inductive type `PyVal`; Python dicts are
association lists of `PyVal` pairs whose lookup uses structural equality
(numbers are modelled as integers only; Python's cross-type numeric key
equality is not needed by any input considered here).  Fallible Python
evaluation (dict operations on unhashable keys raise TypeError, ISO parsing
raises ValueError) is modelled by `Except PyExc` variants of each function,
defined side by side with the pure functions that give the returned value
on non-raising runs.
-/

/-- Model of a Python `datetime.datetime` value: calendar fields plus an
optional UTC offset in minutes (`none` for a naive datetime). -/
structure PyDatetime where
  year : Nat
  month : Nat
  day : Nat
  hour : Nat
  minute : Nat
  second : Nat
  microsecond : Nat
  utcoffset : Option Int
deriving DecidableEq, Repr

/-- Model of the Python values flowing through the transform stage: `None`,
booleans, integers, strings, datetimes, lists, and dicts (as association
lists in insertion order). -/
inductive PyVal where
  | none : PyVal
  | bool : Bool → PyVal
  | int : Int → PyVal
  | str : String → PyVal
  | dt : PyDatetime → PyVal
  | list : List PyVal → PyVal
  | dict : List (PyVal × PyVal) → PyVal
deriving Repr

/-- A Python dict, as stored inside `PyVal.dict`. -/
abbrev PyDict := List (PyVal × PyVal)

mutual

/-- Structural equality test on `PyVal` (Python `==` on the values used by
the transform stage). -/
def PyVal.beq : PyVal → PyVal → Bool
  | .none, .none => true
  | .bool a, .bool b => a == b
  | .int a, .int b => a == b
  | .str a, .str b => a == b
  | .dt a, .dt b => a == b
  | .list xs, .list ys => PyVal.beqList xs ys
  | .dict xs, .dict ys => PyVal.beqPairs xs ys
  | _, _ => false

/-- Elementwise equality test on lists of `PyVal`. -/
def PyVal.beqList : List PyVal → List PyVal → Bool
  | [], [] => true
  | x :: xs, y :: ys => PyVal.beq x y && PyVal.beqList xs ys
  | _, _ => false

/-- Elementwise equality test on dict entry lists. -/
def PyVal.beqPairs : List (PyVal × PyVal) → List (PyVal × PyVal) → Bool
  | [], [] => true
  | (k1, v1) :: xs, (k2, v2) :: ys =>
    PyVal.beq k1 k2 && PyVal.beq v1 v2 && PyVal.beqPairs xs ys
  | _, _ => false

end

mutual

/-- Soundness of `PyVal.beq` with respect to propositional equality. -/
def PyVal.beq_iff : (a b : PyVal) → (PyVal.beq a b = true ↔ a = b)
  | .none, b => by cases b <;> simp [PyVal.beq]
  | .bool x, b => by cases b <;> simp [PyVal.beq]
  | .int x, b => by cases b <;> simp [PyVal.beq]
  | .str x, b => by cases b <;> simp [PyVal.beq]
  | .dt x, b => by cases b <;> simp [PyVal.beq]
  | .list xs, .list ys => by
    simpa [PyVal.beq] using PyVal.beqList_iff xs ys
  | .list xs, .none => by simp [PyVal.beq]
  | .list xs, .bool y => by simp [PyVal.beq]
  | .list xs, .int y => by simp [PyVal.beq]
  | .list xs, .str y => by simp [PyVal.beq]
  | .list xs, .dt y => by simp [PyVal.beq]
  | .list xs, .dict ys => by simp [PyVal.beq]
  | .dict xs, .dict ys => by
    simpa [PyVal.beq] using PyVal.beqPairs_iff xs ys
  | .dict xs, .none => by simp [PyVal.beq]
  | .dict xs, .bool y => by simp [PyVal.beq]
  | .dict xs, .int y => by simp [PyVal.beq]
  | .dict xs, .str y => by simp [PyVal.beq]
  | .dict xs, .dt y => by simp [PyVal.beq]
  | .dict xs, .list ys => by simp [PyVal.beq]

/-- Soundness of `PyVal.beqList`. -/
def PyVal.beqList_iff : (xs ys : List PyVal) → (PyVal.beqList xs ys = true ↔ xs = ys)
  | [], [] => by simp [PyVal.beqList]
  | [], _ :: _ => by simp [PyVal.beqList]
  | _ :: _, [] => by simp [PyVal.beqList]
  | x :: xs, y :: ys => by
    simp [PyVal.beqList, PyVal.beq_iff x y, PyVal.beqList_iff xs ys]

/-- Soundness of `PyVal.beqPairs`. -/
def PyVal.beqPairs_iff : (xs ys : List (PyVal × PyVal)) →
    (PyVal.beqPairs xs ys = true ↔ xs = ys)
  | [], [] => by simp [PyVal.beqPairs]
  | [], _ :: _ => by simp [PyVal.beqPairs]
  | _ :: _, [] => by simp [PyVal.beqPairs]
  | (k1, v1) :: xs, (k2, v2) :: ys => by
    simp [PyVal.beqPairs, PyVal.beq_iff k1 k2, PyVal.beq_iff v1 v2,
      PyVal.beqPairs_iff xs ys, and_assoc]

end

instance : DecidableEq PyVal :=
  fun a b => decidable_of_iff (PyVal.beq a b = true) (PyVal.beq_iff a b)

/-- Python truthiness: `None`, `False`, `0`, the empty string, the empty
list and the empty dict are falsy; datetimes are always truthy. -/
def PyVal.truthy : PyVal → Bool
  | .none => false
  | .bool b => b
  | .int n => n != 0
  | .str s => !s.isEmpty
  | .dt _ => true
  | .list xs => !xs.isEmpty
  | .dict es => !es.isEmpty

/-- The Python `isinstance(v, dict)` check. -/
def PyVal.isDict : PyVal → Bool
  | .dict _ => true
  | _ => false

/-- The entry list of a dict value (empty for non-dicts; only ever applied
to dicts in the development). -/
def PyVal.entries : PyVal → PyDict
  | .dict es => es
  | _ => []

/-- The key list of a dict value, in insertion order. -/
def PyVal.keys : PyVal → List PyVal
  | .dict es => es.map Prod.fst
  | _ => []

/-- Python hashability of the values modelled here: lists and dicts are
unhashable, everything else is hashable. -/
def PyVal.hashable : PyVal → Bool
  | .list _ => false
  | .dict _ => false
  | _ => true

/-- Dict lookup: the value bound to key `k`, if any.  Dicts built by the
code keep each key at most once, so first match suffices. -/
def assocFind? : PyDict → PyVal → Option PyVal
  | [], _ => Option.none
  | (a, b) :: tl, k => if a = k then some b else assocFind? tl k

/-- Python `d.get(k)` on an entry list: the bound value, or `None`. -/
def pyGet (es : PyDict) (k : PyVal) : PyVal :=
  (assocFind? es k).getD PyVal.none

/-- Python `v.get(k)` where `v` is a dict value. -/
def pyValGet (v : PyVal) (k : PyVal) : PyVal :=
  pyGet v.entries k

/-- Python dict insertion: overwrite the value in place if the key is
already present, otherwise append the new binding at the end. -/
def dictInsert : PyDict → PyVal → PyVal → PyDict
  | [], k, v => [(k, v)]
  | (a, b) :: rest, k, v =>
    if a = k then (k, v) :: rest else (a, b) :: dictInsert rest k v

/-- Read exactly `n` decimal digits, extending the accumulator. -/
def readFixedNat : Nat → Nat → List Char → Option (Nat × List Char)
  | 0, acc, cs => some (acc, cs)
  | n + 1, acc, c :: cs =>
    if c.isDigit then readFixedNat n (acc * 10 + (c.toNat - 48)) cs else Option.none
  | _ + 1, _, [] => Option.none

/-- Split off the maximal run of leading decimal digits. -/
def takeDigits : List Char → List Char × List Char
  | [] => ([], [])
  | c :: cs =>
    if c.isDigit then
      let p := takeDigits cs
      (c :: p.1, p.2)
    else ([], c :: cs)

/-- Numeric value of a digit run. -/
def digitsVal (ds : List Char) : Nat :=
  ds.foldl (fun a c => a * 10 + (c.toNat - 48)) 0

/-- Consume one expected character. -/
def expectChar (c : Char) : List Char → Option (List Char)
  | d :: cs => if d = c then some cs else Option.none
  | [] => Option.none

/-- Gregorian leap-year test, as in Python's `calendar.isleap`. -/
def isLeapYear (y : Nat) : Bool :=
  y % 4 == 0 && (y % 100 != 0 || y % 400 == 0)

/-- Number of days in a month of the proleptic Gregorian calendar. -/
def daysInMonth (y m : Nat) : Nat :=
  if m == 2 then (if isLeapYear y then 29 else 28)
  else if m == 4 || m == 6 || m == 9 || m == 11 then 30
  else 31

/-- Parse the optional fractional-second part: either nothing, or a dot
followed by exactly three or exactly six digits (the pre-3.11 CPython
parser accepts only these two widths). -/
def parseFraction (cs : List Char) : Option (Nat × List Char) :=
  match cs with
  | '.' :: rest =>
    let p := takeDigits rest
    if p.1.length == 3 then some (digitsVal p.1 * 1000, p.2)
    else if p.1.length == 6 then some (digitsVal p.1, p.2)
    else Option.none
  | _ => some (0, cs)

/-- Parse the optional UTC-offset suffix `+HH:MM` or `-HH:MM`; the whole
rest of the string must be consumed.  The offset is validated the way
`datetime.timezone` does: minutes below 60 and total magnitude strictly
below 24 hours. -/
def parseOffset (cs : List Char) : Option (Option Int) :=
  match cs with
  | [] => some Option.none
  | sign :: rest =>
    if sign = '+' || sign = '-' then
      match readFixedNat 2 0 rest with
      | some (oh, rest1) =>
        match expectChar ':' rest1 with
        | some rest2 =>
          match readFixedNat 2 0 rest2 with
          | some (om, rest3) =>
            if rest3.isEmpty && om < 60 && oh * 60 + om < 1440 then
              some (some (if sign = '-' then -(oh * 60 + om : Int) else (oh * 60 + om : Int)))
            else Option.none
          | Option.none => Option.none
        | Option.none => Option.none
      | Option.none => Option.none
    else Option.none

/-- Parse the time-of-day part `HH[:MM[:SS[.fff or .ffffff]]]` followed by
an optional offset, returning hour, minute, second, microsecond, offset. -/
def parseTimePart (cs : List Char) : Option (Nat × Nat × Nat × Nat × Option Int) :=
  match readFixedNat 2 0 cs with
  | Option.none => Option.none
  | some (h, cs1) =>
    match cs1 with
    | ':' :: cs2 =>
      match readFixedNat 2 0 cs2 with
      | Option.none => Option.none
      | some (mi, cs3) =>
        match cs3 with
        | ':' :: cs4 =>
          match readFixedNat 2 0 cs4 with
          | Option.none => Option.none
          | some (s, cs5) =>
            match parseFraction cs5 with
            | Option.none => Option.none
            | some (us, cs6) =>
              match parseOffset cs6 with
              | Option.none => Option.none
              | some off => some (h, mi, s, us, off)
        | _ =>
          match parseOffset cs3 with
          | Option.none => Option.none
          | some off => some (h, mi, 0, 0, off)
    | _ =>
      match parseOffset cs1 with
      | Option.none => Option.none
      | some off => some (h, 0, 0, 0, off)

/-- Model of CPython's pre-3.11 `datetime.fromisoformat`: a mandatory
`YYYY-MM-DD` date, optionally followed by any single separator character
and a time `HH[:MM[:SS[.fff or .ffffff]]]` with an optional `+HH:MM` or
`-HH:MM` offset; every field is range-checked and trailing input is
rejected.  Returns `none` where CPython raises `ValueError`. -/
def fromisoformat (s : String) : Option PyDatetime :=
  match readFixedNat 4 0 s.toList with
  | Option.none => Option.none
  | some (y, cs1) =>
    match expectChar '-' cs1 with
    | Option.none => Option.none
    | some cs2 =>
      match readFixedNat 2 0 cs2 with
      | Option.none => Option.none
      | some (mo, cs3) =>
        match expectChar '-' cs3 with
        | Option.none => Option.none
        | some cs4 =>
          match readFixedNat 2 0 cs4 with
          | Option.none => Option.none
          | some (d, cs5) =>
            if y < 1 || mo < 1 || mo > 12 || d < 1 || d > daysInMonth y mo then
              Option.none
            else
              match cs5 with
              | [] => some ⟨y, mo, d, 0, 0, 0, 0, Option.none⟩
              | _sep :: cs6 =>
                match parseTimePart cs6 with
                | Option.none => Option.none
                | some (h, mi, sec, us, off) =>
                  if h > 23 || mi > 59 || sec > 59 then Option.none
                  else some ⟨y, mo, d, h, mi, sec, us, off⟩

/-- Python `date_str.endswith("Z")`: the last character is `Z`. -/
def strEndsWithZ (date_str : String) : Bool :=
  date_str.toList.getLast? == some 'Z'

/-- Python `date_str[:-1]`: the string without its last character. -/
def strDropLast (date_str : String) : String :=
  ⟨date_str.toList.dropLast⟩

/-- The Z-suffix rewrite performed by `_parse_iso_datetime` before parsing:
a trailing `Z` is replaced by an explicit `+00:00` offset. -/
def zNormalize (date_str : String) : String :=
  if strEndsWithZ date_str then strDropLast date_str ++ "+00:00" else date_str

/-- The timestamp normalizer `_parse_iso_datetime` of
src/tasks/transform.py: non-strings and unparseable strings map to `None`
(the absent-marker), parseable strings to a datetime value. -/
def _parse_iso_datetime (v : PyVal) : PyVal :=
  match v with
  | .str date_str =>
    match fromisoformat (zNormalize date_str) with
    | some d => .dt d
    | Option.none => .none
  | _ => .none

/-- Exceptions the modelled Python code can raise. -/
inductive PyExc where
  | typeError
  | valueError
  | keyError
deriving DecidableEq, Repr

/-- Exception-aware `datetime.fromisoformat`: raises `ValueError` where
parsing fails. -/
def fromisoformatE (s : String) : Except PyExc PyDatetime :=
  match fromisoformat s with
  | some d => .ok d
  | Option.none => .error .valueError

/-- Exception-aware `_parse_iso_datetime`, mirroring the source line by
line: the `isinstance` guard, the `Z` rewrite, and the
`try/except ValueError` that converts a parse failure into `None`.  Any
exception other than `ValueError` would propagate. -/
def _parse_iso_datetimeE (v : PyVal) : Except PyExc PyVal :=
  match v with
  | .str date_str =>
    match fromisoformatE (zNormalize date_str) with
    | .ok d => .ok (.dt d)
    | .error .valueError => .ok .none
    | .error e => .error e
  | _ => .ok .none

/-- Exception-aware `d.get(k, default)`: Python hashes the key first and
raises `TypeError` on an unhashable key, even when the dict is empty. -/
def dictGetDE (d : PyDict) (k : PyVal) (dflt : PyVal) : Except PyExc PyVal :=
  if k.hashable then .ok ((assocFind? d k).getD dflt) else .error .typeError

/-- One step of the reference-index dict comprehension of
`transform_launches`: an element is added under its `id` value exactly
when it is a dict containing the key `id`. -/
def indexStep (m : PyDict) (r : PyVal) : PyDict :=
  match r with
  | .dict es =>
    match assocFind? es (.str "id") with
    | some idv => dictInsert m idv r
    | Option.none => m
  | _ => m

/-- The reference indexer of `transform_launches`: the dict comprehension
that maps each well-formed element's `id` value to the element, in input
order, later entries overwriting earlier ones. -/
def buildIndex (refs : List PyVal) : PyDict :=
  refs.foldl indexStep []

/-- Exception-aware reference indexer with explicit accumulator: inserting
under an unhashable `id` value raises `TypeError`. -/
def buildIndexGo (m : PyDict) : List PyVal → Except PyExc PyDict
  | [] => .ok m
  | r :: rest =>
    match r with
    | .dict es =>
      match assocFind? es (.str "id") with
      | some idv =>
        if idv.hashable then buildIndexGo (dictInsert m idv r) rest
        else .error .typeError
      | Option.none => buildIndexGo m rest
    | _ => buildIndexGo m rest

/-- Exception-aware reference indexer. -/
def buildIndexE (refs : List PyVal) : Except PyExc PyDict :=
  buildIndexGo [] refs

/-- The per-launch body of the `transform_launches` loop: read the
`launchpad` and `rocket` foreign keys, resolve each against its index only
when truthy, and build the eleven-field output record, defaulting every
missing value to `None`. -/
def enrichOne (launchpad_map rocket_map : PyDict) (launch : PyDict) : PyVal :=
  let launchpad_id := pyGet launch (.str "launchpad")
  let rocket_id := pyGet launch (.str "rocket")
  let launchpad_data :=
    if launchpad_id.truthy then (assocFind? launchpad_map launchpad_id).getD (.dict [])
    else .dict []
  let rocket_data :=
    if rocket_id.truthy then (assocFind? rocket_map rocket_id).getD (.dict [])
    else .dict []
  .dict
    [(.str "_id", pyGet launch (.str "id")),
     (.str "name", pyGet launch (.str "name")),
     (.str "date_utc", _parse_iso_datetime (pyGet launch (.str "date_utc"))),
     (.str "details", pyGet launch (.str "details")),
     (.str "launchpad_id", launchpad_id),
     (.str "launchpad_name", pyValGet launchpad_data (.str "name")),
     (.str "launchpad_fullname", pyValGet launchpad_data (.str "full_name")),
     (.str "rocket_id", rocket_id),
     (.str "rocket_name", pyValGet rocket_data (.str "name")),
     (.str "success", pyGet launch (.str "success")),
     (.str "upcoming", pyGet launch (.str "upcoming"))]

/-- The `for launch in raw_launches` loop: non-dict elements are skipped,
dict elements contribute one enriched record each, in input order. -/
def enrichLoop (launchpad_map rocket_map : PyDict) : List PyVal → List PyVal
  | [] => []
  | l :: rest =>
    match l with
    | .dict es => enrichOne launchpad_map rocket_map es :: enrichLoop launchpad_map rocket_map rest
    | _ => enrichLoop launchpad_map rocket_map rest

/-- The task `transform_launches` of src/tasks/transform.py: build the two
reference indexes, return the empty list for an empty (falsy) raw launch
list, and otherwise enrich each dict-shaped raw launch. -/
def transform_launches (raw_launches launchpads rockets : List PyVal) : List PyVal :=
  let launchpad_map := buildIndex launchpads
  let rocket_map := buildIndex rockets
  if raw_launches.isEmpty then []
  else enrichLoop launchpad_map rocket_map raw_launches

/-- Exception-aware per-launch body.  The only operations that can raise
are the two index lookups `launchpad_map.get(launchpad_id, ...)` and
`rocket_map.get(rocket_id, ...)` — reached only for truthy keys — which
raise `TypeError` on unhashable keys; the remaining lookups use the
hashable string keys of the record and the timestamp normalizer swallows
its `ValueError`. -/
def enrichOneE (launchpad_map rocket_map : PyDict) (launch : PyDict) :
    Except PyExc PyVal :=
  let launchpad_id := pyGet launch (.str "launchpad")
  let rocket_id := pyGet launch (.str "rocket")
  match (if launchpad_id.truthy then dictGetDE launchpad_map launchpad_id (.dict [])
         else .ok (.dict [])) with
  | .error e => .error e
  | .ok launchpad_data =>
    match (if rocket_id.truthy then dictGetDE rocket_map rocket_id (.dict [])
           else .ok (.dict [])) with
    | .error e => .error e
    | .ok rocket_data =>
      match _parse_iso_datetimeE (pyGet launch (.str "date_utc")) with
      | .error e => .error e
      | .ok date =>
        .ok (.dict
          [(.str "_id", pyGet launch (.str "id")),
           (.str "name", pyGet launch (.str "name")),
           (.str "date_utc", date),
           (.str "details", pyGet launch (.str "details")),
           (.str "launchpad_id", launchpad_id),
           (.str "launchpad_name", pyValGet launchpad_data (.str "name")),
           (.str "launchpad_fullname", pyValGet launchpad_data (.str "full_name")),
           (.str "rocket_id", rocket_id),
           (.str "rocket_name", pyValGet rocket_data (.str "name")),
           (.str "success", pyGet launch (.str "success")),
           (.str "upcoming", pyGet launch (.str "upcoming"))])

/-- Exception-aware enrichment loop: the first raising element aborts the
run, as in Python. -/
def enrichLoopE (launchpad_map rocket_map : PyDict) : List PyVal → Except PyExc (List PyVal)
  | [] => .ok []
  | l :: rest =>
    match l with
    | .dict es =>
      match enrichOneE launchpad_map rocket_map es with
      | .error e => .error e
      | .ok r =>
        match enrichLoopE launchpad_map rocket_map rest with
        | .error e => .error e
        | .ok rs => .ok (r :: rs)
    | _ => enrichLoopE launchpad_map rocket_map rest

/-- Exception-aware `transform_launches`, with the source's evaluation
order: both indexes are built before the empty-input early return. -/
def transform_launchesE (raw_launches launchpads rockets : List PyVal) :
    Except PyExc (List PyVal) :=
  match buildIndexE launchpads with
  | .error e => .error e
  | .ok launchpad_map =>
    match buildIndexE rockets with
    | .error e => .error e
    | .ok rocket_map =>
      if raw_launches.isEmpty then .ok []
      else enrichLoopE launchpad_map rocket_map raw_launches

/-- The value a dict-shaped raw launch contributes to the output (the loop
body applied to the element's entries). -/
def enrichVal (launchpad_map rocket_map : PyDict) (v : PyVal) : PyVal :=
  enrichOne launchpad_map rocket_map v.entries

/-- Whether a reference element binds key `k` in the index: it is a dict
whose `id` entry equals `k`. -/
def refIdMatches (k : PyVal) (r : PyVal) : Bool :=
  match r with
  | .dict es => decide (assocFind? es (.str "id") = some k)
  | _ => false

/-- A reference element never makes the indexing dict comprehension raise:
if it is a dict with an `id` entry, that entry's value is hashable. -/
def refIdHashable (r : PyVal) : Bool :=
  match r with
  | .dict es =>
    match assocFind? es (.str "id") with
    | some idv => idv.hashable
    | Option.none => true
  | _ => true

/-- A raw launch never makes the foreign-key lookups raise: each of its
truthy `launchpad` and `rocket` values is hashable. -/
def launchKeysHashable (l : PyVal) : Bool :=
  match l with
  | .dict es =>
    (!(pyGet es (.str "launchpad")).truthy || (pyGet es (.str "launchpad")).hashable) &&
      (!(pyGet es (.str "rocket")).truthy || (pyGet es (.str "rocket")).hashable)
  | _ => true

/-- The eleven field names of every enriched output record, in order. -/
def enrichedFieldNames : List PyVal :=
  [.str "_id", .str "name", .str "date_utc", .str "details", .str "launchpad_id",
   .str "launchpad_name", .str "launchpad_fullname", .str "rocket_id",
   .str "rocket_name", .str "success", .str "upcoming"]

/-- Looking a key up after a dict insertion: the inserted key maps to the
new value, every other key is unaffected. -/
theorem assocFind?_dictInsert (d : PyDict) (k v q : PyVal) :
    assocFind? (dictInsert d k v) q = if q = k then some v else assocFind? d q := by
  induction d with
  | nil =>
    by_cases h : q = k
    · subst h; simp [dictInsert, assocFind?]
    · simp [dictInsert, assocFind?, h, Ne.symm h]
  | cons hd tl ih =>
    obtain ⟨a, b⟩ := hd
    by_cases hak : a = k
    · subst hak
      by_cases hq : q = a
      · subst hq; simp [dictInsert, assocFind?]
      · simp [dictInsert, assocFind?, hq, Ne.symm hq]
    · by_cases haq : a = q
      · have hqk : ¬ q = k := fun h2 => hak (haq.trans h2)
        simp [dictInsert, hak, assocFind?, haq, ih, hqk]
      · simp [dictInsert, hak, assocFind?, haq, ih]

/-- One comprehension step, seen through lookup: a matching element
shadows the accumulator, any other element leaves it unchanged. -/
theorem assocFind?_indexStep (m : PyDict) (r q : PyVal) :
    assocFind? (indexStep m r) q =
      (if refIdMatches q r then some r else Option.none).or (assocFind? m q) := by
  cases r with
  | dict es =>
    simp only [indexStep, refIdMatches]
    split
    · next idv h =>
      simp only [h]
      by_cases hq : q = idv
      · subst hq; simp [assocFind?_dictInsert]
      · have : ¬ some idv = some q := by simpa using fun h2 => hq h2.symm
        simp [assocFind?_dictInsert, hq, this]
    · next h =>
      simp only [h]; simp
  | none => simp [indexStep, refIdMatches]
  | bool b => simp [indexStep, refIdMatches]
  | int n => simp [indexStep, refIdMatches]
  | str s => simp [indexStep, refIdMatches]
  | dt d => simp [indexStep, refIdMatches]
  | list l => simp [indexStep, refIdMatches]

/-- Lookup through the whole comprehension fold: the last matching input
element wins, with the accumulator as fallback. -/
theorem assocFind?_foldl_indexStep (refs : List PyVal) (m : PyDict) (q : PyVal) :
    assocFind? (refs.foldl indexStep m) q =
      (refs.reverse.find? (refIdMatches q)).or (assocFind? m q) := by
  induction refs generalizing m with
  | nil => simp
  | cons r rest ih =>
    simp only [List.foldl_cons, List.reverse_cons, ih, List.find?_append,
      assocFind?_indexStep, Option.or_assoc]
    congr 1
    simp [List.find?]
    cases refIdMatches q r <;> simp

/-- The reference index, extensionally: a key maps to the last element of
the input that is a dict binding `id` to that key. -/
theorem buildIndex_lookup (refs : List PyVal) (q : PyVal) :
    assocFind? (buildIndex refs) q = refs.reverse.find? (refIdMatches q) := by
  simpa [buildIndex, assocFind?] using assocFind?_foldl_indexStep refs [] q

/-- The enrichment loop is exactly filter-then-map: keep the dict-shaped
elements in order, enrich each. -/
theorem enrichLoop_eq (lpM rM : PyDict) (xs : List PyVal) :
    enrichLoop lpM rM xs = (xs.filter PyVal.isDict).map (enrichVal lpM rM) := by
  induction xs with
  | nil => rfl
  | cons x rest ih =>
    cases x <;> simp [enrichLoop, PyVal.isDict, ih, enrichVal, PyVal.entries, List.filter]

/-- `transform_launches`, extensionally: filter the dict-shaped raw
launches and enrich each against the two built indexes. -/
theorem transform_eq (raws lps rs : List PyVal) :
    transform_launches raws lps rs =
      (raws.filter PyVal.isDict).map (enrichVal (buildIndex lps) (buildIndex rs)) := by
  cases raws with
  | nil => rfl
  | cons x rest => simp [transform_launches, enrichLoop_eq, List.isEmpty]

/-- The timestamp normalizer never raises: its exception-aware run always
returns the pure value. -/
theorem parse_E_ok (v : PyVal) : _parse_iso_datetimeE v = .ok (_parse_iso_datetime v) := by
  cases v with
  | str s =>
    cases h : fromisoformat (zNormalize s) <;>
      simp [_parse_iso_datetimeE, _parse_iso_datetime, fromisoformatE, h]
  | none => rfl
  | bool b => rfl
  | int n => rfl
  | dt d => rfl
  | list l => rfl
  | dict d => rfl

/-- A non-raising index build returns the pure fold. -/
theorem buildIndexGo_ok (refs : List PyVal) (m m' : PyDict)
    (h : buildIndexGo m refs = .ok m') : m' = refs.foldl indexStep m := by
  induction refs generalizing m with
  | nil =>
    simp [buildIndexGo] at h
    simp [h]
  | cons r rest ih =>
    cases r with
    | dict es =>
      cases hid : assocFind? es (PyVal.str "id") with
      | some idv =>
        by_cases hh : idv.hashable
        · simp [buildIndexGo, hid, hh] at h
          simpa [indexStep, hid] using ih _ h
        · simp [buildIndexGo, hid, hh] at h
      | none =>
        simp [buildIndexGo, hid] at h
        simpa [indexStep, hid] using ih _ h
    | none => simpa [buildIndexGo, indexStep] using ih _ h
    | bool b => simpa [buildIndexGo, indexStep] using ih _ h
    | int n => simpa [buildIndexGo, indexStep] using ih _ h
    | str s => simpa [buildIndexGo, indexStep] using ih _ h
    | dt d => simpa [buildIndexGo, indexStep] using ih _ h
    | list l => simpa [buildIndexGo, indexStep] using ih _ h

/-- With hashable `id` values the index build cannot raise. -/
theorem buildIndexGo_total (refs : List PyVal) (m : PyDict)
    (h : refs.all refIdHashable = true) :
    buildIndexGo m refs = .ok (refs.foldl indexStep m) := by
  induction refs generalizing m with
  | nil => rfl
  | cons r rest ih =>
    simp only [List.all_cons, Bool.and_eq_true] at h
    cases r with
    | dict es =>
      cases hid : assocFind? es (PyVal.str "id") with
      | some idv =>
        have hh : idv.hashable = true := by
          have := h.1
          simpa [refIdHashable, hid] using this
        simp [buildIndexGo, hid, hh, indexStep, ih _ h.2]
      | none => simp [buildIndexGo, hid, indexStep, ih _ h.2]
    | none => simpa [buildIndexGo, indexStep] using ih _ h.2
    | bool b => simpa [buildIndexGo, indexStep] using ih _ h.2
    | int n => simpa [buildIndexGo, indexStep] using ih _ h.2
    | str s => simpa [buildIndexGo, indexStep] using ih _ h.2
    | dt d => simpa [buildIndexGo, indexStep] using ih _ h.2
    | list l => simpa [buildIndexGo, indexStep] using ih _ h.2

/-- A non-raising enrichment of one launch returns the pure record. -/
theorem enrichOneE_ok (lpM rM es : PyDict) (v : PyVal)
    (h : enrichOneE lpM rM es = .ok v) : v = enrichOne lpM rM es := by
  by_cases h1 : (pyGet es (PyVal.str "launchpad")).truthy <;>
  by_cases h2 : (pyGet es (PyVal.str "rocket")).truthy <;>
  by_cases h3 : (pyGet es (PyVal.str "launchpad")).hashable <;>
  by_cases h4 : (pyGet es (PyVal.str "rocket")).hashable <;>
  simp [enrichOneE, enrichOne, dictGetDE, h1, h2, h3, h4, parse_E_ok] at h ⊢ <;>
  exact h.symm

/-- With hashable truthy foreign keys, enriching one launch cannot raise. -/
theorem enrichOneE_total (lpM rM es : PyDict)
    (hk : launchKeysHashable (.dict es) = true) :
    enrichOneE lpM rM es = .ok (enrichOne lpM rM es) := by
  simp only [launchKeysHashable, Bool.and_eq_true, Bool.or_eq_true, Bool.not_eq_true'] at hk
  by_cases h1 : (pyGet es (PyVal.str "launchpad")).truthy <;>
  by_cases h2 : (pyGet es (PyVal.str "rocket")).truthy
  · have h3 := hk.1.resolve_left (by simp [h1])
    have h4 := hk.2.resolve_left (by simp [h2])
    simp [enrichOneE, enrichOne, dictGetDE, h1, h2, h3, h4, parse_E_ok]
  · have h3 := hk.1.resolve_left (by simp [h1])
    simp [enrichOneE, enrichOne, dictGetDE, h1, h2, h3, parse_E_ok]
  · have h4 := hk.2.resolve_left (by simp [h2])
    simp [enrichOneE, enrichOne, dictGetDE, h1, h2, h4, parse_E_ok]
  · simp [enrichOneE, enrichOne, dictGetDE, h1, h2, parse_E_ok]

/-- A non-raising enrichment loop returns the pure loop's output. -/
theorem enrichLoopE_ok (lpM rM : PyDict) (xs : List PyVal) (out : List PyVal)
    (h : enrichLoopE lpM rM xs = .ok out) : out = enrichLoop lpM rM xs := by
  induction xs generalizing out with
  | nil => simp [enrichLoopE] at h; simp [enrichLoop, h]
  | cons x rest ih =>
    cases x with
    | dict es =>
      cases henr : enrichOneE lpM rM es with
      | error e => simp [enrichLoopE, henr] at h
      | ok r =>
        cases hloop : enrichLoopE lpM rM rest with
        | error e => simp [enrichLoopE, henr, hloop] at h
        | ok rs =>
          simp [enrichLoopE, henr, hloop] at h
          simp [enrichLoop, ← h, ih rs hloop, enrichOneE_ok lpM rM es r henr]
    | none => simpa [enrichLoopE, enrichLoop] using ih out h
    | bool b => simpa [enrichLoopE, enrichLoop] using ih out h
    | int n => simpa [enrichLoopE, enrichLoop] using ih out h
    | str s => simpa [enrichLoopE, enrichLoop] using ih out h
    | dt d => simpa [enrichLoopE, enrichLoop] using ih out h
    | list l => simpa [enrichLoopE, enrichLoop] using ih out h

/-- With hashable truthy foreign keys throughout, the loop cannot raise. -/
theorem enrichLoopE_total (lpM rM : PyDict) (xs : List PyVal)
    (h : xs.all launchKeysHashable = true) :
    enrichLoopE lpM rM xs = .ok (enrichLoop lpM rM xs) := by
  induction xs with
  | nil => rfl
  | cons x rest ih =>
    simp only [List.all_cons, Bool.and_eq_true] at h
    cases x with
    | dict es => simp [enrichLoopE, enrichLoop, enrichOneE_total lpM rM es h.1, ih h.2]
    | none => simpa [enrichLoopE, enrichLoop] using ih h.2
    | bool b => simpa [enrichLoopE, enrichLoop] using ih h.2
    | int n => simpa [enrichLoopE, enrichLoop] using ih h.2
    | str s => simpa [enrichLoopE, enrichLoop] using ih h.2
    | dt d => simpa [enrichLoopE, enrichLoop] using ih h.2
    | list l => simpa [enrichLoopE, enrichLoop] using ih h.2

/-- Whenever the exception-aware transform returns, it returns the pure
transform's output. -/
theorem transform_launchesE_ok (raws lps rs out : List PyVal)
    (h : transform_launchesE raws lps rs = .ok out) :
    out = transform_launches raws lps rs := by
  cases hlp : buildIndexE lps with
  | error e => simp [transform_launchesE, hlp] at h
  | ok lpM =>
    cases hr : buildIndexE rs with
    | error e => simp [transform_launchesE, hlp, hr] at h
    | ok rM =>
      have elp : lpM = buildIndex lps := buildIndexGo_ok lps [] lpM hlp
      have er : rM = buildIndex rs := buildIndexGo_ok rs [] rM hr
      by_cases hemp : raws.isEmpty
      · simp [transform_launchesE, hlp, hr, hemp] at h
        simp [transform_launches, hemp, ← h]
      · simp [transform_launchesE, hlp, hr, hemp] at h
        simp [transform_launches, hemp, ← elp, ← er, enrichLoopE_ok lpM rM raws out h]

/-- With hashable reference ids and hashable truthy foreign keys, the
transform cannot raise and returns the pure output. -/
theorem transform_launchesE_total (raws lps rs : List PyVal)
    (hlp : lps.all refIdHashable = true) (hr : rs.all refIdHashable = true)
    (hraw : raws.all launchKeysHashable = true) :
    transform_launchesE raws lps rs = .ok (transform_launches raws lps rs) := by
  have e1 : buildIndexE lps = .ok (buildIndex lps) := buildIndexGo_total lps [] hlp
  have e2 : buildIndexE rs = .ok (buildIndex rs) := buildIndexGo_total rs [] hr
  by_cases hemp : raws.isEmpty
  · simp [transform_launchesE, transform_launches, e1, e2, hemp]
  · simp [transform_launchesE, transform_launches, e1, e2, hemp,
      enrichLoopE_total (buildIndex lps) (buildIndex rs) raws hraw]

/-- The `launchpad_id` output field is the raw `launchpad` value. -/
theorem enrichOne_launchpad_id (lpM rM L : PyDict) :
    pyValGet (enrichOne lpM rM L) (.str "launchpad_id") = pyGet L (.str "launchpad") := rfl

/-- The `rocket_id` output field is the raw `rocket` value. -/
theorem enrichOne_rocket_id (lpM rM L : PyDict) :
    pyValGet (enrichOne lpM rM L) (.str "rocket_id") = pyGet L (.str "rocket") := rfl

/-- The `launchpad_name` output field reads `name` from the resolved
launchpad record (the empty dict when the key is falsy or unresolved). -/
theorem enrichOne_launchpad_name (lpM rM L : PyDict) :
    pyValGet (enrichOne lpM rM L) (.str "launchpad_name") =
      pyValGet (if (pyGet L (.str "launchpad")).truthy
                then (assocFind? lpM (pyGet L (.str "launchpad"))).getD (.dict [])
                else .dict []) (.str "name") := rfl

/-- The `launchpad_fullname` output field reads `full_name` from the
resolved launchpad record. -/
theorem enrichOne_launchpad_fullname (lpM rM L : PyDict) :
    pyValGet (enrichOne lpM rM L) (.str "launchpad_fullname") =
      pyValGet (if (pyGet L (.str "launchpad")).truthy
                then (assocFind? lpM (pyGet L (.str "launchpad"))).getD (.dict [])
                else .dict []) (.str "full_name") := rfl

/-- The `rocket_name` output field reads `name` from the resolved rocket
record. -/
theorem enrichOne_rocket_name (lpM rM L : PyDict) :
    pyValGet (enrichOne lpM rM L) (.str "rocket_name") =
      pyValGet (if (pyGet L (.str "rocket")).truthy
                then (assocFind? rM (pyGet L (.str "rocket"))).getD (.dict [])
                else .dict []) (.str "name") := rfl

/-- Every enriched record carries exactly the eleven field names, in
order. -/
theorem enrichOne_keys (lpM rM L : PyDict) :
    (enrichOne lpM rM L).keys = enrichedFieldNames := rfl

/-- Every dict-shaped raw launch contributes its enriched record to the
transform output. -/
theorem mem_transform (raws lps rs : List PyVal) (L : PyDict) (h : PyVal.dict L ∈ raws) :
    enrichOne (buildIndex lps) (buildIndex rs) L ∈ transform_launches raws lps rs := by
  rw [transform_eq]
  exact List.mem_map.mpr
    ⟨.dict L, List.mem_filter.mpr ⟨h, by simp [PyVal.isDict]⟩, rfl⟩

/-- A string extended by the offset suffix can no longer end in Z. -/
theorem strEndsWithZ_append_offset (t : String) :
    strEndsWithZ (t ++ "+00:00") = false := by
  have h0 : ("+00:00" : String).data.getLast? = some '0' := rfl
  simp [strEndsWithZ, String.toList, String.data_append, List.getLast?_append, h0]

/-- Claim C6: a string ending in the literal Z parses to the same result as the
string with the trailing Z replaced by an explicit +00:00 offset. -/
theorem z_suffix_equivalence (s : String) (h : strEndsWithZ s = true) :
    _parse_iso_datetime (.str s) =
      _parse_iso_datetime (.str (strDropLast s ++ "+00:00")) := by
  have h1 : zNormalize s = strDropLast s ++ "+00:00" := by simp [zNormalize, h]
  have h2 : zNormalize (strDropLast s ++ "+00:00") = strDropLast s ++ "+00:00" := by
    simp [zNormalize, strEndsWithZ_append_offset]
  simp [_parse_iso_datetime, h1, h2]

/-- Witness for claim C6, at the concrete timestamp of the spec. -/
theorem z_suffix_equivalence_witness :
    strEndsWithZ "2023-01-15T10:00:00.000Z" = true ∧
    _parse_iso_datetime (.str "2023-01-15T10:00:00.000Z") =
      _parse_iso_datetime (.str "2023-01-15T10:00:00.000+00:00") := by
  refine ⟨by decide, ?_⟩
  have h := z_suffix_equivalence "2023-01-15T10:00:00.000Z" (by decide)
  have e : strDropLast "2023-01-15T10:00:00.000Z" ++ "+00:00" =
      "2023-01-15T10:00:00.000+00:00" := rfl
  rw [e] at h
  exact h

/-- Claim C7: the timestamp normalizer is total and never propagates an
error: non-strings and unparseable strings yield the absent-marker. -/
theorem parse_iso_total (v : PyVal) :
    _parse_iso_datetimeE v = .ok (_parse_iso_datetime v) ∧
    (_parse_iso_datetime v = .none ∨ ∃ d, _parse_iso_datetime v = .dt d) ∧
    ((∀ s, v ≠ .str s) → _parse_iso_datetime v = .none) ∧
    (∀ s, v = .str s → fromisoformat (zNormalize s) = Option.none →
      _parse_iso_datetime v = .none) := by
  refine ⟨parse_E_ok v, ?_, ?_, ?_⟩
  · cases v with
    | str s =>
      cases h : fromisoformat (zNormalize s) with
      | some d => exact Or.inr ⟨d, by simp [_parse_iso_datetime, h]⟩
      | none => exact Or.inl (by simp [_parse_iso_datetime, h])
    | none => exact Or.inl rfl
    | bool b => exact Or.inl rfl
    | int n => exact Or.inl rfl
    | dt d => exact Or.inl rfl
    | list l => exact Or.inl rfl
    | dict d => exact Or.inl rfl
  · intro hns
    cases v with
    | str s => exact absurd rfl (hns s)
    | none => rfl
    | bool b => rfl
    | int n => rfl
    | dt d => rfl
    | list l => rfl
    | dict d => rfl
  · intro s hv hf
    subst hv
    simp [_parse_iso_datetime, hf]

/-- Witness for claim C7: a non-string, a malformed string and an
impossible date all yield the absent-marker. -/
theorem parse_iso_total_witness :
    _parse_iso_datetime (PyVal.int 5) = PyVal.none ∧
    _parse_iso_datetime (PyVal.str "not-a-date") = PyVal.none ∧
    _parse_iso_datetime (PyVal.str "2023-02-30T00:00:00") = PyVal.none :=
  ⟨(parse_iso_total (PyVal.int 5)).2.2.1 (fun s => by simp),
   (parse_iso_total (PyVal.str "not-a-date")).2.2.2 "not-a-date" rfl (by decide),
   (parse_iso_total (PyVal.str "2023-02-30T00:00:00")).2.2.2 "2023-02-30T00:00:00" rfl
     (by decide)⟩

/-- Claim C5: the reference index binds each key to the last well-formed input
element carrying that id; malformed elements bind nothing. -/
theorem reference_index_spec :
    (∀ refs m, buildIndexE refs = .ok m →
      ∀ k, assocFind? m k = refs.reverse.find? (refIdMatches k)) ∧
    buildIndexE
        [PyVal.dict [(.str "id", .str "a"), (.str "name", .str "X")],
         PyVal.dict [(.str "id", .str "a"), (.str "name", .str "Y")]] =
      .ok [(PyVal.str "a", PyVal.dict [(.str "id", .str "a"), (.str "name", .str "Y")])] := by
  constructor
  · intro refs m h k
    have hm := buildIndexGo_ok refs [] m h
    rw [hm]
    simpa [buildIndex] using buildIndex_lookup refs k
  · rfl

/-- Witness for claim C5, looking an absent key up in a concrete index. -/
theorem reference_index_spec_witness :
    assocFind?
        [(PyVal.str "a", PyVal.dict [(.str "id", .str "a"), (.str "name", .str "Y")])]
        (PyVal.str "b") =
      ([PyVal.dict [(.str "id", .str "a"), (.str "name", .str "X")],
        PyVal.dict [(.str "id", .str "a"), (.str "name", .str "Y")]].reverse.find?
          (refIdMatches (PyVal.str "b"))) :=
  reference_index_spec.1
    [PyVal.dict [(.str "id", .str "a"), (.str "name", .str "X")],
     PyVal.dict [(.str "id", .str "a"), (.str "name", .str "Y")]]
    [(PyVal.str "a", PyVal.dict [(.str "id", .str "a"), (.str "name", .str "Y")])]
    rfl (PyVal.str "b")

/-- Claim C9: the concrete happy-path scenario of the spec, evaluated
exactly. -/
theorem concrete_scenario :
    transform_launches
        [PyVal.dict
          [(.str "id", .str "l1"), (.str "name", .str "Launch Alpha"),
           (.str "date_utc", .str "2023-01-15T10:00:00.000Z"),
           (.str "launchpad", .str "lp1"), (.str "rocket", .str "r1"),
           (.str "success", .bool true), (.str "upcoming", .bool false)]]
        [PyVal.dict
          [(.str "id", .str "lp1"), (.str "name", .str "Pad A"),
           (.str "full_name", .str "Launch Complex A")]]
        [PyVal.dict [(.str "id", .str "r1"), (.str "name", .str "Rocket X")]] =
      [PyVal.dict
        [(.str "_id", .str "l1"), (.str "name", .str "Launch Alpha"),
         (.str "date_utc", .dt ⟨2023, 1, 15, 10, 0, 0, 0, some 0⟩),
         (.str "details", .none), (.str "launchpad_id", .str "lp1"),
         (.str "launchpad_name", .str "Pad A"),
         (.str "launchpad_fullname", .str "Launch Complex A"),
         (.str "rocket_id", .str "r1"), (.str "rocket_name", .str "Rocket X"),
         (.str "success", .bool true), (.str "upcoming", .bool false)]] := rfl

/-- Claim C1: whenever the transform returns, its output is the in-order
enrichment of exactly the dict-shaped raw launches. -/
theorem transform_output_length_order (raws lps rs out : List PyVal)
    (h : transform_launchesE raws lps rs = .ok out) :
    out.length = (raws.filter PyVal.isDict).length ∧
    out = (raws.filter PyVal.isDict).map (enrichVal (buildIndex lps) (buildIndex rs)) := by
  have he := transform_launchesE_ok raws lps rs out h
  rw [he, transform_eq]
  exact ⟨by simp, rfl⟩

/-- Witness for claim C1: one dict and one non-dict raw element give one
output record. -/
theorem transform_output_length_order_witness :
    [PyVal.dict
      [(.str "_id", .none), (.str "name", .none), (.str "date_utc", .none),
       (.str "details", .none), (.str "launchpad_id", .none),
       (.str "launchpad_name", .none), (.str "launchpad_fullname", .none),
       (.str "rocket_id", .none), (.str "rocket_name", .none),
       (.str "success", .none), (.str "upcoming", .none)]].length =
      ([PyVal.dict [], PyVal.int 7].filter PyVal.isDict).length ∧
    [PyVal.dict
      [(.str "_id", .none), (.str "name", .none), (.str "date_utc", .none),
       (.str "details", .none), (.str "launchpad_id", .none),
       (.str "launchpad_name", .none), (.str "launchpad_fullname", .none),
       (.str "rocket_id", .none), (.str "rocket_name", .none),
       (.str "success", .none), (.str "upcoming", .none)]] =
      ([PyVal.dict [], PyVal.int 7].filter PyVal.isDict).map
        (enrichVal (buildIndex []) (buildIndex [])) :=
  transform_output_length_order [PyVal.dict [], PyVal.int 7] [] [] _ rfl

/-- Claim C4: every output record carries exactly the eleven fields, in
order, even for an empty raw launch mapping. -/
theorem enriched_record_keys (raws lps rs : List PyVal) (r : PyVal)
    (h : r ∈ transform_launches raws lps rs) :
    r.keys = enrichedFieldNames := by
  rw [transform_eq] at h
  obtain ⟨v, hv, rfl⟩ := List.mem_map.mp h
  exact enrichOne_keys _ _ _

/-- Witness for claim C4, on the record produced by an empty mapping. -/
theorem enriched_record_keys_witness :
    PyVal.dict
        [(.str "_id", .none), (.str "name", .none), (.str "date_utc", .none),
         (.str "details", .none), (.str "launchpad_id", .none),
         (.str "launchpad_name", .none), (.str "launchpad_fullname", .none),
         (.str "rocket_id", .none), (.str "rocket_name", .none),
         (.str "success", .none), (.str "upcoming", .none)] ∈
      transform_launches [PyVal.dict []] [] [] ∧
    PyVal.keys
        (PyVal.dict
          [(.str "_id", .none), (.str "name", .none), (.str "date_utc", .none),
           (.str "details", .none), (.str "launchpad_id", .none),
           (.str "launchpad_name", .none), (.str "launchpad_fullname", .none),
           (.str "rocket_id", .none), (.str "rocket_name", .none),
           (.str "success", .none), (.str "upcoming", .none)]) = enrichedFieldNames :=
  ⟨by decide, enriched_record_keys [PyVal.dict []] [] [] _ (by decide)⟩

/-- Counterexample to claim C2 as stated: an unresolved truthy foreign key is copied into
launchpad_id unchanged, not replaced by the absent-marker. -/
theorem unresolved_launchpad_id_counterexample :
    assocFind? (buildIndex []) (PyVal.str "x") = Option.none ∧
    PyVal.str "x" ≠ PyVal.none ∧
    transform_launches [PyVal.dict [(.str "launchpad", .str "x")]] [] [] =
      [PyVal.dict
        [(.str "_id", .none), (.str "name", .none), (.str "date_utc", .none),
         (.str "details", .none), (.str "launchpad_id", .str "x"),
         (.str "launchpad_name", .none), (.str "launchpad_fullname", .none),
         (.str "rocket_id", .none), (.str "rocket_name", .none),
         (.str "success", .none), (.str "upcoming", .none)]] :=
  ⟨rfl, by decide, rfl⟩

/-- Claim C2 amended: with a non-null, non-absent foreign key missing from the
index, the name fields degrade to the absent-marker while the id field
carries the raw key. -/
theorem unresolved_reference_fields (raws lps rs : List PyVal) (L : PyDict) (v : PyVal)
    (hmem : PyVal.dict L ∈ raws) :
    (pyGet L (.str "launchpad") = v → v ≠ .none →
      assocFind? (buildIndex lps) v = Option.none →
      enrichOne (buildIndex lps) (buildIndex rs) L ∈ transform_launches raws lps rs ∧
      pyValGet (enrichOne (buildIndex lps) (buildIndex rs) L) (.str "launchpad_name") = .none ∧
      pyValGet (enrichOne (buildIndex lps) (buildIndex rs) L) (.str "launchpad_fullname") = .none ∧
      pyValGet (enrichOne (buildIndex lps) (buildIndex rs) L) (.str "launchpad_id") = v) ∧
    (pyGet L (.str "rocket") = v → v ≠ .none →
      assocFind? (buildIndex rs) v = Option.none →
      enrichOne (buildIndex lps) (buildIndex rs) L ∈ transform_launches raws lps rs ∧
      pyValGet (enrichOne (buildIndex lps) (buildIndex rs) L) (.str "rocket_name") = .none ∧
      pyValGet (enrichOne (buildIndex lps) (buildIndex rs) L) (.str "rocket_id") = v) := by
  constructor
  · intro hv _hnn hlook
    refine ⟨mem_transform raws lps rs L hmem, ?_, ?_, ?_⟩
    · rw [enrichOne_launchpad_name, hv, hlook]
      cases ht : v.truthy <;> simp [ht, pyValGet, pyGet, assocFind?, PyVal.entries]
    · rw [enrichOne_launchpad_fullname, hv, hlook]
      cases ht : v.truthy <;> simp [ht, pyValGet, pyGet, assocFind?, PyVal.entries]
    · rw [enrichOne_launchpad_id, hv]
  · intro hv _hnn hlook
    refine ⟨mem_transform raws lps rs L hmem, ?_, ?_⟩
    · rw [enrichOne_rocket_name, hv, hlook]
      cases ht : v.truthy <;> simp [ht, pyValGet, pyGet, assocFind?, PyVal.entries]
    · rw [enrichOne_rocket_id, hv]

/-- Witness for the amended claim C2. -/
theorem unresolved_reference_fields_witness :
    enrichOne (buildIndex []) (buildIndex []) [(PyVal.str "launchpad", PyVal.str "x")] ∈
      transform_launches [PyVal.dict [(.str "launchpad", .str "x")]] [] [] ∧
    pyValGet (enrichOne (buildIndex []) (buildIndex [])
        [(PyVal.str "launchpad", PyVal.str "x")]) (.str "launchpad_name") = .none ∧
    pyValGet (enrichOne (buildIndex []) (buildIndex [])
        [(PyVal.str "launchpad", PyVal.str "x")]) (.str "launchpad_fullname") = .none ∧
    pyValGet (enrichOne (buildIndex []) (buildIndex [])
        [(PyVal.str "launchpad", PyVal.str "x")]) (.str "launchpad_id") = PyVal.str "x" :=
  (unresolved_reference_fields [PyVal.dict [(.str "launchpad", .str "x")]] [] []
    [(PyVal.str "launchpad", PyVal.str "x")] (PyVal.str "x") (by decide)).1
    rfl (by decide) rfl

/-- Counterexample to claim C3 as stated: a falsy foreign key (here the empty string) is
non-null, non-absent and present as an index key, yet the name fields stay
at the absent-marker because the code gates resolution on truthiness. -/
theorem falsy_resolved_counterexample :
    assocFind?
        (buildIndex
          [PyVal.dict [(.str "id", .str ""), (.str "name", .str "N"),
            (.str "full_name", .str "F")]])
        (PyVal.str "") =
      some (PyVal.dict [(.str "id", .str ""), (.str "name", .str "N"),
        (.str "full_name", .str "F")]) ∧
    PyVal.str "" ≠ PyVal.none ∧
    transform_launches [PyVal.dict [(.str "launchpad", .str "")]]
        [PyVal.dict [(.str "id", .str ""), (.str "name", .str "N"),
          (.str "full_name", .str "F")]] [] =
      [PyVal.dict
        [(.str "_id", .none), (.str "name", .none), (.str "date_utc", .none),
         (.str "details", .none), (.str "launchpad_id", .str ""),
         (.str "launchpad_name", .none), (.str "launchpad_fullname", .none),
         (.str "rocket_id", .none), (.str "rocket_name", .none),
         (.str "success", .none), (.str "upcoming", .none)]] ∧
    PyVal.none ≠ PyVal.str "N" :=
  ⟨rfl, by decide, rfl, by decide⟩

/-- Claim C3 amended: with a truthy foreign key that is a key of the index, the
id field carries the key and the name fields read the indexed record,
defaulting to the absent-marker where the record lacks them. -/
theorem resolved_reference_fields (raws lps rs : List PyVal) (L : PyDict) (v rec : PyVal)
    (hmem : PyVal.dict L ∈ raws) :
    (pyGet L (.str "launchpad") = v → v.truthy = true →
      assocFind? (buildIndex lps) v = some rec →
      enrichOne (buildIndex lps) (buildIndex rs) L ∈ transform_launches raws lps rs ∧
      pyValGet (enrichOne (buildIndex lps) (buildIndex rs) L) (.str "launchpad_id") = v ∧
      pyValGet (enrichOne (buildIndex lps) (buildIndex rs) L) (.str "launchpad_name") =
        pyValGet rec (.str "name") ∧
      pyValGet (enrichOne (buildIndex lps) (buildIndex rs) L) (.str "launchpad_fullname") =
        pyValGet rec (.str "full_name")) ∧
    (pyGet L (.str "rocket") = v → v.truthy = true →
      assocFind? (buildIndex rs) v = some rec →
      enrichOne (buildIndex lps) (buildIndex rs) L ∈ transform_launches raws lps rs ∧
      pyValGet (enrichOne (buildIndex lps) (buildIndex rs) L) (.str "rocket_id") = v ∧
      pyValGet (enrichOne (buildIndex lps) (buildIndex rs) L) (.str "rocket_name") =
        pyValGet rec (.str "name")) := by
  constructor
  · intro hv ht hlook
    refine ⟨mem_transform raws lps rs L hmem, ?_, ?_, ?_⟩
    · rw [enrichOne_launchpad_id, hv]
    · rw [enrichOne_launchpad_name, hv, hlook, if_pos ht]
      rfl
    · rw [enrichOne_launchpad_fullname, hv, hlook, if_pos ht]
      rfl
  · intro hv ht hlook
    refine ⟨mem_transform raws lps rs L hmem, ?_, ?_⟩
    · rw [enrichOne_rocket_id, hv]
    · rw [enrichOne_rocket_name, hv, hlook, if_pos ht]
      rfl

/-- Witness for the amended claim C3. -/
theorem resolved_reference_fields_witness :
    enrichOne
        (buildIndex [PyVal.dict [(.str "id", .str "lp1"), (.str "name", .str "Pad A")]])
        (buildIndex [])
        [(PyVal.str "launchpad", PyVal.str "lp1")] ∈
      transform_launches [PyVal.dict [(.str "launchpad", .str "lp1")]]
        [PyVal.dict [(.str "id", .str "lp1"), (.str "name", .str "Pad A")]] [] ∧
    pyValGet
        (enrichOne
          (buildIndex [PyVal.dict [(.str "id", .str "lp1"), (.str "name", .str "Pad A")]])
          (buildIndex [])
          [(PyVal.str "launchpad", PyVal.str "lp1")]) (.str "launchpad_id") =
      PyVal.str "lp1" ∧
    pyValGet
        (enrichOne
          (buildIndex [PyVal.dict [(.str "id", .str "lp1"), (.str "name", .str "Pad A")]])
          (buildIndex [])
          [(PyVal.str "launchpad", PyVal.str "lp1")]) (.str "launchpad_name") =
      pyValGet (PyVal.dict [(.str "id", .str "lp1"), (.str "name", .str "Pad A")])
        (.str "name") ∧
    pyValGet
        (enrichOne
          (buildIndex [PyVal.dict [(.str "id", .str "lp1"), (.str "name", .str "Pad A")]])
          (buildIndex [])
          [(PyVal.str "launchpad", PyVal.str "lp1")]) (.str "launchpad_fullname") =
      pyValGet (PyVal.dict [(.str "id", .str "lp1"), (.str "name", .str "Pad A")])
        (.str "full_name") :=
  (resolved_reference_fields [PyVal.dict [(.str "launchpad", .str "lp1")]]
    [PyVal.dict [(.str "id", .str "lp1"), (.str "name", .str "Pad A")]] []
    [(PyVal.str "launchpad", PyVal.str "lp1")] (PyVal.str "lp1")
    (PyVal.dict [(.str "id", .str "lp1"), (.str "name", .str "Pad A")])
    (by decide)).1 rfl (by decide) rfl

/-- Claim C10: a falsy foreign-key value skips resolution entirely — the name
fields are the absent-marker even if the value is an index key — while the
id field still carries the raw falsy value. -/
theorem falsy_foreign_key_fields (raws lps rs : List PyVal) (L : PyDict) (v : PyVal)
    (hmem : PyVal.dict L ∈ raws) :
    (pyGet L (.str "launchpad") = v → v.truthy = false →
      enrichOne (buildIndex lps) (buildIndex rs) L ∈ transform_launches raws lps rs ∧
      pyValGet (enrichOne (buildIndex lps) (buildIndex rs) L) (.str "launchpad_name") = .none ∧
      pyValGet (enrichOne (buildIndex lps) (buildIndex rs) L) (.str "launchpad_fullname") = .none ∧
      pyValGet (enrichOne (buildIndex lps) (buildIndex rs) L) (.str "launchpad_id") = v) ∧
    (pyGet L (.str "rocket") = v → v.truthy = false →
      enrichOne (buildIndex lps) (buildIndex rs) L ∈ transform_launches raws lps rs ∧
      pyValGet (enrichOne (buildIndex lps) (buildIndex rs) L) (.str "rocket_name") = .none ∧
      pyValGet (enrichOne (buildIndex lps) (buildIndex rs) L) (.str "rocket_id") = v) := by
  constructor
  · intro hv ht
    refine ⟨mem_transform raws lps rs L hmem, ?_, ?_, ?_⟩
    · rw [enrichOne_launchpad_name, hv, ht]
      rfl
    · rw [enrichOne_launchpad_fullname, hv, ht]
      rfl
    · rw [enrichOne_launchpad_id, hv]
  · intro hv ht
    refine ⟨mem_transform raws lps rs L hmem, ?_, ?_⟩
    · rw [enrichOne_rocket_name, hv, ht]
      rfl
    · rw [enrichOne_rocket_id, hv]

/-- Witness for claim C10: the empty string is a key of the index, yet the
name field stays at the absent-marker and the id field carries it. -/
theorem falsy_foreign_key_fields_witness :
    assocFind?
        (buildIndex [PyVal.dict [(.str "id", .str ""), (.str "name", .str "N")]])
        (PyVal.str "") =
      some (PyVal.dict [(.str "id", .str ""), (.str "name", .str "N")]) ∧
    pyValGet
        (enrichOne (buildIndex [PyVal.dict [(.str "id", .str ""), (.str "name", .str "N")]])
          (buildIndex []) [(PyVal.str "launchpad", PyVal.str "")])
        (.str "launchpad_name") = PyVal.none ∧
    pyValGet
        (enrichOne (buildIndex [PyVal.dict [(.str "id", .str ""), (.str "name", .str "N")]])
          (buildIndex []) [(PyVal.str "launchpad", PyVal.str "")])
        (.str "launchpad_id") = PyVal.str "" :=
  ⟨rfl,
   ((falsy_foreign_key_fields [PyVal.dict [(.str "launchpad", .str "")]]
      [PyVal.dict [(.str "id", .str ""), (.str "name", .str "N")]] []
      [(PyVal.str "launchpad", PyVal.str "")] (PyVal.str "")
      (by decide)).1 rfl rfl).2.1,
   ((falsy_foreign_key_fields [PyVal.dict [(.str "launchpad", .str "")]]
      [PyVal.dict [(.str "id", .str ""), (.str "name", .str "N")]] []
      [(PyVal.str "launchpad", PyVal.str "")] (PyVal.str "")
      (by decide)).1 rfl rfl).2.2.2⟩

/-- Counterexample to claim C8 as stated: an unhashable truthy foreign key (here a
non-empty list) makes the underlying dict lookup raise TypeError. -/
theorem transform_unhashable_counterexample :
    transform_launchesE [PyVal.dict [(.str "launchpad", PyVal.list [PyVal.int 1])]] [] [] =
      .error PyExc.typeError := rfl

/-- Claim C8 amended: when every reference id and every truthy foreign-key value
is hashable, the transform raises no exception and returns its pure
output. -/
theorem transform_no_exception (raws lps rs : List PyVal)
    (h1 : lps.all refIdHashable = true) (h2 : rs.all refIdHashable = true)
    (h3 : raws.all launchKeysHashable = true) :
    transform_launchesE raws lps rs = .ok (transform_launches raws lps rs) :=
  transform_launchesE_total raws lps rs h1 h2 h3

/-- Witness for the amended claim C8, on inputs with malformed elements. -/
theorem transform_no_exception_witness :
    transform_launchesE
        [PyVal.dict [(.str "launchpad", .str "lp1")], PyVal.int 3, PyVal.dict []]
        [PyVal.dict [(.str "id", .str "lp1")]] [PyVal.dict [(.str "name", .str "noid")]] =
      .ok (transform_launches
        [PyVal.dict [(.str "launchpad", .str "lp1")], PyVal.int 3, PyVal.dict []]
        [PyVal.dict [(.str "id", .str "lp1")]] [PyVal.dict [(.str "name", .str "noid")]]) :=
  transform_no_exception
    [PyVal.dict [(.str "launchpad", .str "lp1")], PyVal.int 3, PyVal.dict []]
    [PyVal.dict [(.str "id", .str "lp1")]] [PyVal.dict [(.str "name", .str "noid")]]
    (by decide) (by decide) (by decide)
